import Mathlib

/-!
Verification development for the backlog-quick browser extension.

Shallow embedding of the relevant source files:
  * src/src/contents/backlog-form-filler.ts  (content script: fillForm and helpers)
  * src/src/popup.tsx                        (popup UI: dataURLtoBlob, openBacklogIssuePage,
                                              handleCaptureScreenshot; and the concatenated
                                              BacklogAPIClient REST client)
  * src/unnamed/part_000                     (background screenshot service)
  * src/unnamed/part_001                     (older popup variant: openBacklogIssuePage
                                              without a timestamp field)

JavaScript-specific semantics (truthiness, regex matching, atob, NaN comparison)
are modelled explicitly where the code depends on them.
-/

set_option maxHeartbeats 1000000

/-- JS truthiness of a `string | null` value: `null` and the empty string are falsy. -/
def truthy : Option String → Bool
  | none => false
  | some s => s ≠ ""

/-- Models the JS expression `s || null` applied to a string: an empty string
collapses to `null`. -/
def strOrNull (s : String) : Option String :=
  if s = "" then none else some s

/-- Models the JS expression `v || null` applied to a `string | null` value. -/
def optOrNull : Option String → Option String
  | none => none
  | some s => if s = "" then none else some s

/-- Whether a character is matched by the JS regex metacharacter `.`
(without the `s` flag): everything except the four line terminators
U+000A, U+000D, U+2028, U+2029. -/
def jsDot (c : Char) : Bool :=
  c ≠ '\n' && c ≠ '\r' && c ≠ '\u2028' && c ≠ '\u2029'

/-- Boolean list-prefix test (used by the explicit regex-matcher embeddings). -/
def leadsWith : List Char → List Char → Bool
  | [], _ => true
  | _ :: _, [] => false
  | a :: as, b :: bs => a == b && leadsWith as bs

/-- ASCII whitespace stripped by forgiving-base64 (the `atob` algorithm). -/
def isAsciiWs (c : Char) : Bool :=
  c == ' ' || c == '\t' || c == '\n' || c == '\x0c' || c == '\r'

/-- Whether a character belongs to the base64 alphabet. -/
def isB64Char (c : Char) : Bool :=
  ('A' ≤ c && c ≤ 'Z') || ('a' ≤ c && c ≤ 'z') || ('0' ≤ c && c ≤ '9') ||
    c == '+' || c == '/'

/-- Numeric value of a base64 alphabet character. -/
def b64Val (c : Char) : Nat :=
  if 'A' ≤ c && c ≤ 'Z' then c.toNat - 'A'.toNat
  else if 'a' ≤ c && c ≤ 'z' then c.toNat - 'a'.toNat + 26
  else if '0' ≤ c && c ≤ '9' then c.toNat - '0'.toNat + 52
  else if c == '+' then 62
  else 63

/-- Decode a list of base64 digit values into bytes (leftover bits of a final
partial group are discarded, as in forgiving-base64). -/
def b64Core : List Nat → List Nat
  | a :: b :: c :: d :: rest =>
      (a * 4 + b / 16) :: ((b % 16) * 16 + c / 4) :: ((c % 4) * 64 + d) :: b64Core rest
  | [a, b] => [a * 4 + b / 16]
  | [a, b, c] => [a * 4 + b / 16, (b % 16) * 16 + c / 4]
  | _ => []

/-- Remove up to two trailing padding characters. -/
def stripPad (cs : List Char) : List Char :=
  match cs.reverse with
  | '=' :: '=' :: rest => rest.reverse
  | '=' :: rest => rest.reverse
  | _ => cs

/-- The browser `atob` builtin (forgiving-base64 decode); `none` models the
`InvalidCharacterError` it throws on malformed input. Returns the byte values
of the decoded binary string (each in 0..255, equal to `charCodeAt`). -/
def atob (s : String) : Option (List Nat) :=
  let cs := s.toList.filter (fun c => !isAsciiWs c)
  let cs := if cs.length % 4 == 0 then stripPad cs else cs
  if cs.length % 4 == 1 then none
  else if cs.all isB64Char then some (b64Core (cs.map b64Val)) else none

/-- Lazy part of the JS regex `/:(.*?);/`: the shortest run of `.`-matchable
characters terminated by a semicolon, or `none` when no such run starts here. -/
def lazyUpTo : List Char → Option (List Char)
  | [] => none
  | ';' :: _ => some []
  | c :: rest => if jsDot c then (lazyUpTo rest).map (c :: ·) else none

/-- First match of the JS regex `/:(.*?);/` over a character list: scan for the
first colon from which a lazy capture succeeds; return the capture group. -/
def mimeCapture : List Char → Option (List Char)
  | [] => none
  | ':' :: rest =>
      match lazyUpTo rest with
      | some cap => some cap
      | none => mimeCapture rest
  | _ :: rest => mimeCapture rest

/-- A `Blob` as far as this code can observe it: its byte sequence and MIME type. -/
structure Blob where
  bytes : List Nat
  type : String
deriving Repr, DecidableEq

namespace Popup

/-- Embedding of `dataURLtoBlob` from src/src/popup.tsx (lines 28-38):
split on commas, extract the MIME type from the header with `/:(.*?);/`
(falling back to "image/png" when the match fails or captures an empty,
hence falsy, string), base64-decode the payload (a missing payload coerces
to the string "undefined" inside `atob`, which then throws, modelled as
`none`), and package the bytes with the MIME type. The source's backwards
`while (n--)` loop copies `charCodeAt` of every decoded position, so the
blob bytes are exactly the decoded byte list. -/
def dataURLtoBlob (dataUrl : String) : Option Blob :=
  let arr := dataUrl.splitOn ","
  let header := match arr with
    | [] => ""
    | h :: _ => h
  let mime := match mimeCapture header.toList with
    | some cap => if cap.isEmpty then "image/png" else String.mk cap
    | none => "image/png"
  let payload := match arr.get? 1 with
    | some s => s
    | none => "undefined"
  match atob payload with
  | none => none
  | some bytes => some ⟨bytes, mime⟩

end Popup

namespace ContentScript

/-- Embedding of `dataURLtoBlob` from src/src/contents/backlog-form-filler.ts
(lines 22-32); the body is the same, character for character, as the popup's
copy, and both call the same platform builtins (`split`, `match`, `atob`). -/
def dataURLtoBlob (dataUrl : String) : Option Blob :=
  let arr := dataUrl.splitOn ","
  let header := match arr with
    | [] => ""
    | h :: _ => h
  let mime := match mimeCapture header.toList with
    | some cap => if cap.isEmpty then "image/png" else String.mk cap
    | none => "image/png"
  let payload := match arr.get? 1 with
    | some s => s
    | none => "undefined"
  match atob payload with
  | none => none
  | some bytes => some ⟨bytes, mime⟩

end ContentScript

/-- The staged handoff record stored under the key `backlogQuickFormData`.
The content script's `FormData` interface declares `timestamp : number`, but
the value actually found in storage is whatever a writer put there; the older
popup variant (src/unnamed/part_001) writes the record without a timestamp
field, so the field is modelled as optional. -/
structure FormData where
  summary : Option String
  description : Option String
  issueTypeId : Option String
  priorityId : Option String
  assigneeId : Option String
  screenshotDataUrl : Option String
  timestamp : Option Int
deriving Repr, DecidableEq

namespace ContentScript

/-- The freshness test `Date.now() - formData.timestamp > MAX_AGE_MS` with
`MAX_AGE_MS = 5000`. When the timestamp field is absent, the JS subtraction
yields `NaN` and `NaN > 5000` is `false`, so the check does not trip. -/
def ageExceeded (now : Int) : Option Int → Bool
  | some t => decide (now - t > 5000)
  | none => false

/-- The guard `!summary && !description && !issueTypeId && !priorityId &&
!assigneeId && !screenshotDataUrl` (line 136). -/
def allFalsy (fd : FormData) : Bool :=
  !truthy fd.summary && !truthy fd.description && !truthy fd.issueTypeId &&
    !truthy fd.priorityId && !truthy fd.assigneeId && !truthy fd.screenshotDataUrl

/-- State of one combobox widget on the target page, as probed by
`selectComboboxOption`: whether the combobox button exists, its
`aria-controls` attribute, whether the listbox and the target option are
found. `throws` models the `querySelector` call on the interpolated listbox
id throwing a DOMException on a malformed selector (the page is foreign and
uncontrolled). -/
structure ComboEnv where
  present : Bool
  ariaControls : Option String
  listboxPresent : Bool
  optionPresent : Bool
  throws : Bool
deriving Repr, DecidableEq

/-- The DOM hooks `fillForm` probes on Backlog's issue-creation page. -/
structure Dom where
  hasSummaryInput : Bool
  hasDescEditor : Bool
  issueTypeCombo : ComboEnv
  priorityCombo : ComboEnv
  assigneeCombo : ComboEnv
deriving Repr, DecidableEq

/-- Observable DOM mutations performed by `fillForm`. -/
inductive Effect
  | setInput (value : String)
  | setEditorHtml (html : String)
  | pasteImage (dataUrl : String)
  | comboClick (labelId : String)
  | optionClick (labelId optionId : String)
  | appendStyle
  | appendNotification (text : String)
deriving Repr, DecidableEq

/-- Operations issued against `chrome.storage.local` for the staged-record key. -/
inductive StorageOp
  | get
  | remove
deriving Repr, DecidableEq

/-- Embedding of `selectComboboxOption` (lines 66-104). Returns the clicks
performed, the boolean result, and whether the listbox lookup threw. The
open click happens before the throwing lookup, so it is retained on the
error path. -/
def selectComboboxOption (env : ComboEnv) (labelId optionId : String) :
    List Effect × Bool × Bool :=
  if env.present = false then ([], false, false)
  else
    match env.ariaControls with
    | none => ([Effect.comboClick labelId], false, false)
    | some _ =>
        if env.throws then ([Effect.comboClick labelId], false, true)
        else if env.listboxPresent = false then
          ([Effect.comboClick labelId, Effect.comboClick labelId], false, false)
        else if env.optionPresent then
          ([Effect.comboClick labelId, Effect.optionClick labelId optionId], true, false)
        else
          ([Effect.comboClick labelId, Effect.comboClick labelId], false, false)

/-- The JS template that turns the description into editor HTML
(lines 160-161): one paragraph per line, empty lines becoming `<br>`. -/
def descriptionHtml (d : String) : String :=
  String.join ((d.splitOn "\n").map
    (fun line => "<p>" ++ (if line = "" then "<br>" else line) ++ "</p>"))

/-- Sequencing of best-effort DOM steps: once a step has thrown, later steps
do not run; the effects already performed are kept. -/
def seqE (acc step : List Effect × Bool) : List Effect × Bool :=
  if acc.2 then acc else (acc.1 ++ step.1, step.2)

/-- Summary filling (lines 144-151): only when the summary is truthy and the
input element exists. Never throws. -/
def summaryFx (dom : Dom) (fd : FormData) : List Effect × Bool :=
  if truthy fd.summary && dom.hasSummaryInput then
    ([Effect.setInput (fd.summary.getD "")], false)
  else ([], false)

/-- Description filling (lines 159-164): only when the description is truthy
and the editor element exists. Never throws. -/
def descFx (dom : Dom) (fd : FormData) : List Effect × Bool :=
  if truthy fd.description && dom.hasDescEditor then
    ([Effect.setEditorHtml (descriptionHtml (fd.description.getD ""))], false)
  else ([], false)

/-- Screenshot pasting (lines 167-170): `pasteImageToEditor` first converts the
data URL with `dataURLtoBlob`, which throws on a malformed data URL; in that
case the step errors with no effect performed. -/
def pasteFx (dom : Dom) (fd : FormData) : List Effect × Bool :=
  if truthy fd.screenshotDataUrl && dom.hasDescEditor then
    match ContentScript.dataURLtoBlob (fd.screenshotDataUrl.getD "") with
    | none => ([], true)
    | some _ => ([Effect.pasteImage (fd.screenshotDataUrl.getD "")], false)
  else ([], false)

/-- One combobox step of `fillForm` (lines 173-185): run only when the id is
truthy; the boolean result of `selectComboboxOption` is discarded. -/
def comboFx (env : ComboEnv) (labelId : String) (field : Option String) :
    List Effect × Bool :=
  if truthy field then
    let r := selectComboboxOption env labelId (field.getD "")
    (r.1, r.2.2)
  else ([], false)

/-- The text of the success toast (line 189). -/
def notifyText : String := "Backlog Quick: フォームに値を自動入力しました"

/-- The sequential DOM-injection phase of `fillForm` (lines 141-185), before
the notification block. -/
def domPhase (dom : Dom) (fd : FormData) : List Effect × Bool :=
  seqE (seqE (seqE (seqE (seqE (seqE ([], false)
    (summaryFx dom fd))
    (descFx dom fd))
    (pasteFx dom fd))
    (comboFx dom.issueTypeCombo "issueTypeLabel" fd.issueTypeId))
    (comboFx dom.priorityCombo "priorityLabel" fd.priorityId))
    (comboFx dom.assigneeCombo "assignerLabel" fd.assigneeId)

/-- The full DOM phase including the final style/notification block
(lines 188-213), which runs only when nothing before it threw. -/
def fillDom (dom : Dom) (fd : FormData) : List Effect × Bool :=
  seqE (domPhase dom fd) ([Effect.appendStyle, Effect.appendNotification notifyText], false)

/-- Inputs of one execution of `fillForm`: the value currently stored under
`backlogQuickFormData`, the current clock, and the target page's DOM. -/
structure FillEnv where
  storedData : Option FormData
  now : Int
  dom : Dom
deriving Repr, DecidableEq

/-- Result of one execution of `fillForm`: the storage operations issued for
the staged-record key, the DOM effects performed, the value left in storage,
and whether the promise rejected. -/
structure Outcome where
  ops : List StorageOp
  effects : List Effect
  stored : Option FormData
  errored : Bool
deriving Repr, DecidableEq

/-- Embedding of `fillForm` (lines 116-222): read the staged record, return if
absent; otherwise remove it immediately, return if stale (5-second window) or
if all six payload fields are falsy; otherwise run the DOM-injection phase. -/
def fillForm (env : FillEnv) : Outcome :=
  match env.storedData with
  | none => ⟨[StorageOp.get], [], none, false⟩
  | some fd =>
      if ageExceeded env.now fd.timestamp then
        ⟨[StorageOp.get, StorageOp.remove], [], none, false⟩
      else if allFalsy fd then
        ⟨[StorageOp.get, StorageOp.remove], [], none, false⟩
      else
        let r := fillDom env.dom fd
        ⟨[StorageOp.get, StorageOp.remove], r.1, none, r.2⟩

/-- The module entry point `fillForm().catch(() => {})` (lines 234-238): any
rejection is discarded, and the catch handler performs no further action, so
the observable behaviour is exactly the operations and effects of `fillForm`
with the error bit dropped. -/
def runContentScript (env : FillEnv) : List StorageOp × List Effect × Option FormData :=
  ((fillForm env).ops, (fillForm env).effects, (fillForm env).stored)

end ContentScript

/-- Characters removed by JS `String.prototype.trim` (ASCII whitespace and
line terminators; exotic Unicode space classes are not modelled because no
claim depends on them). -/
def jsWs (c : Char) : Bool :=
  c == ' ' || c == '\t' || c == '\n' || c == '\r' || c == '\x0b' || c == '\x0c'

/-- JS `s.trim()`: strip leading and trailing whitespace. -/
def jsTrim (s : String) : String :=
  String.mk (((s.toList.dropWhile jsWs).reverse.dropWhile jsWs).reverse)

/-- A project as used by `openBacklogIssuePage`: numeric id and project key. -/
structure Project where
  id : Int
  projectKey : String
deriving Repr, DecidableEq

/-- The popup state read by `openBacklogIssuePage`. -/
structure PopupForm where
  projects : List Project
  selectedProjectId : String
  space : String
  title : String
  description : String
  selectedIssueTypeId : String
  selectedPriorityId : String
  selectedAssigneeId : String
  screenshotDataUrl : Option String
deriving Repr, DecidableEq

namespace Popup

/-- Embedding of `openBacklogIssuePage` from src/src/popup.tsx (lines 242-260):
look up the selected project by `String(p.id) === selectedProjectId`; bail out
when it is missing or the space is falsy; otherwise stage the handoff record
(each field via `x || null`, the timestamp via `Date.now()`) and open
`https://SPACE/add/PROJECTKEY`. Returns the staged record and the opened URL,
or `none` when the function returned early without writing. -/
def openBacklogIssuePage (st : PopupForm) (now : Int) : Option (FormData × String) :=
  match st.projects.find? (fun p => toString p.id = st.selectedProjectId) with
  | none => none
  | some proj =>
      if st.space = "" then none
      else
        some (⟨strOrNull (jsTrim st.title), strOrNull (jsTrim st.description),
               strOrNull st.selectedIssueTypeId, strOrNull st.selectedPriorityId,
               strOrNull st.selectedAssigneeId, optOrNull st.screenshotDataUrl,
               some now⟩,
              "https://" ++ st.space ++ "/add/" ++ proj.projectKey)

end Popup

namespace LegacyPopup

/-- Embedding of `openBacklogIssuePage` from the older popup variant
src/unnamed/part_001 (lines 215-232): identical to the current popup's
version except that the staged object literal has no `timestamp` property. -/
def openBacklogIssuePage (st : PopupForm) : Option (FormData × String) :=
  match st.projects.find? (fun p => toString p.id = st.selectedProjectId) with
  | none => none
  | some proj =>
      if st.space = "" then none
      else
        some (⟨strOrNull (jsTrim st.title), strOrNull (jsTrim st.description),
               strOrNull st.selectedIssueTypeId, strOrNull st.selectedPriorityId,
               strOrNull st.selectedAssigneeId, optOrNull st.screenshotDataUrl,
               none⟩,
              "https://" ++ st.space ++ "/add/" ++ proj.projectKey)

end LegacyPopup

/-- The REST client: `constructor(space, apiKey)` stores
`baseURL = "https://" + space + "/api/v2"` and the key. -/
structure BacklogAPIClient where
  baseURL : String
  apiKey : String
deriving Repr, DecidableEq

namespace BacklogAPIClient

/-- The constructor (src/src/popup.tsx concatenated client, lines 590-596):
throws when either credential is falsy, modelled as `none`. -/
def create (space apiKey : String) : Option BacklogAPIClient :=
  if space = "" ∨ apiKey = "" then none
  else some ⟨"https://" ++ space ++ "/api/v2", apiKey⟩

/-- A request URL as observable here: the pre-query part and the list of
appended query parameters, in order. -/
structure URLModel where
  base : String
  query : List (String × String)
deriving Repr, DecidableEq

/-- JS object property assignment `params.apiKey = v` on an object viewed as an
insertion-ordered association list: overwrite in place if present, else append. -/
def setParam : List (String × Option String) → String → Option String →
    List (String × Option String)
  | [], k, v => [(k, v)]
  | (k', v') :: rest, k, v =>
      if k' = k then (k, v) :: rest else (k', v') :: setParam rest k v

/-- URL construction inside `request` (lines 625-638): force
`params.apiKey = this.apiKey`, build `baseURL + endpoint`, then append every
defined parameter as a query parameter in object order. -/
def requestUrl (c : BacklogAPIClient) (endpoint : String)
    (params : List (String × Option String)) : URLModel :=
  let ps := setParam params "apiKey" (some c.apiKey)
  { base := c.baseURL ++ endpoint,
    query := ps.filterMap (fun kv => kv.2.map (fun v => (kv.1, v))) }

/-- URL construction inside `uploadAttachmentFromBlob` (lines 749-750):
`baseURL + "/space/attachment"` with the apiKey appended directly. -/
def uploadAttachmentUrl (c : BacklogAPIClient) : URLModel :=
  { base := c.baseURL ++ "/space/attachment", query := [("apiKey", c.apiKey)] }

/-- Embedding of `handleErrorResponse` (lines 671-693). The body argument
models `await response.json()` reading the error payload:
`none` when parsing throws, `some none` when it parses but the `errors`
field is absent or falsy, `some (some msgs)` when an `errors` array is
present (its `message` fields listed in order). Returns the message of the
error the method always throws. -/
def handleErrorResponse (status : Nat) (body : Option (Option (List String))) : String :=
  let message := match body with
    | some (some msgs) => String.intercalate ", " msgs
    | _ => "Backlog API error"
  let message :=
    if status = 401 then "Invalid API key or unauthorized access"
    else if status = 404 then "Resource not found"
    else if status = 429 then "Rate limit exceeded. Please try again later"
    else message
  message ++ " (Status: " ++ toString status ++ ")"

end BacklogAPIClient

/-- The literal `https://` prefix of the regex `/https:\/\/(.+)\/api/`. -/
def httpsLit : List Char := ['h', 't', 't', 'p', 's', ':', '/', '/']

/-- The literal `/api` that must follow the capture group. -/
def apiLit : List Char := ['/', 'a', 'p', 'i']

/-- The `/api/v2` suffix the constructor appends to the space. -/
def apiV2Lit : List Char := ['/', 'a', 'p', 'i', '/', 'v', '2']

/-- Greedy backtracking of `(.+)` before the literal `/api`: try capture
lengths from `n` downwards, accepting the first (hence largest) nonempty
all-dot capture that is immediately followed by `/api`. -/
def searchJ (m : List Char) : Nat → Option Nat
  | 0 => none
  | j + 1 =>
      if (m.take (j + 1)).all jsDot && leadsWith apiLit (m.drop (j + 1)) then some (j + 1)
      else searchJ m j

/-- Capture length of `(.+)\/api` against `m`, starting at its beginning. -/
def captureLen (m : List Char) : Option Nat := searchJ m m.length

/-- First match of the JS regex `/https:\/\/(.+)\/api/`: at each position, the
literal `https://` must match and the greedy capture must succeed; on failure
the engine retries from the next position. Returns capture group 1. -/
def regexSpace : List Char → Option (List Char)
  | [] => none
  | c :: rest =>
      if leadsWith httpsLit (c :: rest) then
        match captureLen ((c :: rest).drop 8) with
        | some j => some (((c :: rest).drop 8).take j)
        | none => regexSpace rest
      else regexSpace rest

namespace BacklogAPIClient

/-- Embedding of `getIssueUrl` (lines 788-791): re-extract the space from
`baseURL` with `/https:\/\/(.+)\/api/` (the `|| ""` falls back to the empty
string when the match fails; a successful capture is never empty because of
the `+`), then build `https://SPACE/view/KEY`. -/
def getIssueUrl (c : BacklogAPIClient) (issueKey : String) : String :=
  let space := match regexSpace c.baseURL.toList with
    | some cs => String.mk cs
    | none => ""
  "https://" ++ space ++ "/view/" ++ issueKey

end BacklogAPIClient

deriving instance DecidableEq for Except

/-- An active browser tab as seen by the background screenshot service. -/
structure TabInfo where
  id : Option Int
  windowId : Int
deriving Repr, DecidableEq

/-- Environment of one capture attempt: the active tab of the current window
(if any) and the outcome of `chrome.tabs.captureVisibleTab` (an error value
models the call rejecting, carrying the error's message). -/
structure CaptureEnv where
  activeTab : Option TabInfo
  captureResult : Except String String
deriving Repr, DecidableEq

/-- JS truthiness of `tab?.id`: undefined tab, undefined id, and id 0 are falsy. -/
def tabIdTruthy : Option TabInfo → Bool
  | none => false
  | some tab =>
      match tab.id with
      | none => false
      | some i => i ≠ 0

/-- Embedding of `captureScreenshot` from src/unnamed/part_000 (lines 16-27):
throw "No active tab found" when `!tab?.id`, otherwise return the result of
`captureVisibleTab` (propagating its rejection). -/
def captureScreenshot (env : CaptureEnv) : Except String String :=
  if tabIdTruthy env.activeTab then env.captureResult
  else Except.error "No active tab found"

/-- The message the background listener sends back (part_000, lines 3-14). -/
structure CaptureResponse where
  success : Bool
  dataUrl : Option String
  error : Option String
deriving Repr, DecidableEq

/-- The background `onMessage` listener for CAPTURE_SCREENSHOT: resolve to
`{success: true, dataUrl}` or `{success: false, error: error.message}`. -/
def captureListener (env : CaptureEnv) : CaptureResponse :=
  match captureScreenshot env with
  | Except.ok d => ⟨true, some d, none⟩
  | Except.error m => ⟨false, none, some m⟩

/-- The slice of popup state touched by `handleCaptureScreenshot`. -/
structure ShotState where
  screenshotDataUrl : Option String
  errorMessage : String
  capturingScreenshot : Bool
deriving Repr, DecidableEq

/-- The localized fallback text used when the response carries no usable error. -/
def captureFallbackText : String := "スクリーンショットの撮影に失敗しました"

namespace Popup

/-- Embedding of `handleCaptureScreenshot` from src/src/popup.tsx
(lines 136-150). The argument models `chrome.runtime.sendMessage`: `ok r`
when the listener responded with `r`, `error m` when the send itself threw an
Error with message `m`. Success stores the data URL; a failure response shows
`response.error || FALLBACK` (so an empty message falls back); a thrown Error
shows its message verbatim; the `finally` clears the capturing flag. The
function catches everything, so it always produces a state. -/
def handleCaptureScreenshot (resp : Except String CaptureResponse)
    (st : ShotState) : ShotState :=
  let st := { st with capturingScreenshot := true }
  let st :=
    match resp with
    | Except.ok r =>
        if r.success then { st with screenshotDataUrl := r.dataUrl }
        else
          { st with errorMessage :=
              match r.error with
              | some e => if e = "" then captureFallbackText else e
              | none => captureFallbackText }
    | Except.error m => { st with errorMessage := m }
  { st with capturingScreenshot := false }

end Popup

/-- Both query-parameter association lists contain the key after assignment. -/
theorem mem_setParam (k : String) (v : Option String) :
    ∀ ps : List (String × Option String), (k, v) ∈ BacklogAPIClient.setParam ps k v := by
  intro ps
  induction ps with
  | nil => simp [BacklogAPIClient.setParam]
  | cons hd tl ih =>
      obtain ⟨k', v'⟩ := hd
      by_cases h : k' = k
      · simp [BacklogAPIClient.setParam, h]
      · simp only [BacklogAPIClient.setParam, if_neg h, List.mem_cons]
        exact Or.inr ih

/-- C8: the two textually identical copies of `dataURLtoBlob` — one in the
popup (src/src/popup.tsx lines 28-38), one in the content script
(src/src/contents/backlog-form-filler.ts lines 22-32) — are extensionally
equal: on every input string they either both throw, or both produce a blob
with the same byte sequence and the same MIME type. -/
theorem dataURLtoBlob_copies_agree (s : String) :
    Popup.dataURLtoBlob s = ContentScript.dataURLtoBlob s := rfl

/-- C3: `handleErrorResponse` throws an error whose message is the invalid-key
text for status 401, the not-found text for 404, the rate-limited text for
429, and otherwise the messages carried in the API error body joined with
", " (with the generic "Backlog API error" fallback when the body cannot be
parsed or carries no `errors` array); in every case the status code is
appended in a " (Status: N)" suffix. -/
theorem handleErrorResponse_status_mapping (status : Nat)
    (body : Option (Option (List String))) :
    (status = 401 → BacklogAPIClient.handleErrorResponse status body =
      "Invalid API key or unauthorized access (Status: 401)") ∧
    (status = 404 → BacklogAPIClient.handleErrorResponse status body =
      "Resource not found (Status: 404)") ∧
    (status = 429 → BacklogAPIClient.handleErrorResponse status body =
      "Rate limit exceeded. Please try again later (Status: 429)") ∧
    (status ≠ 401 → status ≠ 404 → status ≠ 429 →
      (∀ msgs, body = some (some msgs) →
        BacklogAPIClient.handleErrorResponse status body =
          String.intercalate ", " msgs ++ " (Status: " ++ toString status ++ ")") ∧
      (body = none ∨ body = some none →
        BacklogAPIClient.handleErrorResponse status body =
          "Backlog API error (Status: " ++ toString status ++ ")")) := by
  refine ⟨?_, ?_, ?_, ?_⟩
  · intro h; subst h; rfl
  · intro h; subst h; rfl
  · intro h; subst h; rfl
  · intro h1 h4 h9
    constructor
    · intro msgs hb; subst hb
      simp [BacklogAPIClient.handleErrorResponse, h1, h4, h9]
    · intro hb
      rcases hb with hb | hb <;> subst hb <;>
        simp [BacklogAPIClient.handleErrorResponse, h1, h4, h9]

/-- Witness for C3: concrete instances of each branch of the mapping. -/
theorem handleErrorResponse_status_mapping_witness :
    BacklogAPIClient.handleErrorResponse 401 none =
      "Invalid API key or unauthorized access (Status: 401)" ∧
    BacklogAPIClient.handleErrorResponse 500 (some (some ["No project."])) =
      "No project. (Status: 500)" ∧
    BacklogAPIClient.handleErrorResponse 500 none =
      "Backlog API error (Status: 500)" :=
  ⟨(handleErrorResponse_status_mapping 401 none).1 rfl,
   ((handleErrorResponse_status_mapping 500 (some (some ["No project."]))).2.2.2
      (by decide) (by decide) (by decide)).1 ["No project."] rfl,
   ((handleErrorResponse_status_mapping 500 none).2.2.2
      (by decide) (by decide) (by decide)).2 (Or.inl rfl)⟩

/-- C5: every URL built by the REST client's `request` — hence every endpoint
of the client — and the URL of the multipart attachment upload carry the
client's `apiKey` as a query parameter, whatever endpoint and caller-supplied
parameters are used. -/
theorem apiKey_query_param_always_present (c : BacklogAPIClient) (endpoint : String)
    (params : List (String × Option String)) :
    ("apiKey", c.apiKey) ∈ (c.requestUrl endpoint params).query ∧
    ("apiKey", c.apiKey) ∈ c.uploadAttachmentUrl.query := by
  constructor
  · simp only [BacklogAPIClient.requestUrl]
    rw [List.mem_filterMap]
    exact ⟨("apiKey", some c.apiKey), mem_setParam "apiKey" (some c.apiKey) params, rfl⟩
  · simp [BacklogAPIClient.uploadAttachmentUrl]

/-- C7 counterexample: when `captureVisibleTab` rejects with an Error whose
message is the empty string, the listener faithfully reports
`{success: false, error: ""}`, but `handleCaptureScreenshot` does not display
that message: the falsy `response.error` makes it fall back to the localized
default text, so the shown error text differs from the underlying message. -/
theorem capture_empty_message_fallback :
    captureScreenshot ⟨some ⟨some 1, 5⟩, Except.error ""⟩ = Except.error "" ∧
    (Popup.handleCaptureScreenshot
        (Except.ok (captureListener ⟨some ⟨some 1, 5⟩, Except.error ""⟩))
        ⟨none, "", false⟩).errorMessage = captureFallbackText ∧
    captureFallbackText ≠ "" := by
  refine ⟨rfl, rfl, by decide⟩

/-- C7 (amended): for every failure of the screenshot capture service (no
active tab, or `captureVisibleTab` rejecting) the background listener responds
with success `false` and the underlying error's message, and the popup's
`handleCaptureScreenshot` — which never throws, being a total state
transformer here — displays that message as the error text whenever it is
non-empty (an empty, hence falsy, message is replaced by the localized
default) and leaves the stored screenshot unchanged; on success the returned
data URL is stored as the screenshot. -/
theorem screenshot_failure_surfaces_message (env : CaptureEnv) (st : ShotState) :
    (∀ m, captureScreenshot env = Except.error m →
      captureListener env = ⟨false, none, some m⟩ ∧
      (m ≠ "" →
        (Popup.handleCaptureScreenshot (Except.ok (captureListener env)) st).errorMessage = m) ∧
      (m = "" →
        (Popup.handleCaptureScreenshot (Except.ok (captureListener env)) st).errorMessage =
          captureFallbackText) ∧
      (Popup.handleCaptureScreenshot (Except.ok (captureListener env)) st).screenshotDataUrl =
        st.screenshotDataUrl) ∧
    (∀ d, captureScreenshot env = Except.ok d →
      captureListener env = ⟨true, some d, none⟩ ∧
      (Popup.handleCaptureScreenshot (Except.ok (captureListener env)) st).screenshotDataUrl =
        some d) := by
  constructor
  · intro m h
    have hl : captureListener env = ⟨false, none, some m⟩ := by
      simp [captureListener, h]
    refine ⟨hl, ?_, ?_, ?_⟩
    · intro hm; rw [hl]; simp [Popup.handleCaptureScreenshot, hm]
    · intro hm; subst hm; rw [hl]; simp [Popup.handleCaptureScreenshot]
    · rw [hl]; simp [Popup.handleCaptureScreenshot]
  · intro d h
    have hl : captureListener env = ⟨true, some d, none⟩ := by
      simp [captureListener, h]
    refine ⟨hl, ?_⟩
    rw [hl]; simp [Popup.handleCaptureScreenshot]

/-- Witness for C7: the no-active-tab failure surfaces its message. -/
theorem screenshot_failure_surfaces_message_witness :
    (Popup.handleCaptureScreenshot
        (Except.ok (captureListener ⟨none, Except.ok "data:image/png;base64,"⟩))
        ⟨none, "", false⟩).errorMessage = "No active tab found" :=
  ((screenshot_failure_surfaces_message ⟨none, Except.ok "data:image/png;base64,"⟩
      ⟨none, "", false⟩).1 "No active tab found" rfl).2.1 (by decide)

/-- C4 counterexample: the `openBacklogIssuePage` copy in the older popup
variant (src/unnamed/part_001) stages a record with no timestamp field, so
not every staged handoff record written by an `openBacklogIssuePage` of this
repository carries a timestamp set to the write time. -/
theorem legacy_staged_record_missing_timestamp :
    LegacyPopup.openBacklogIssuePage
        ⟨[⟨1, "PRJ"⟩], "1", "demo.backlog.com", "Bug report", "", "", "", "", none⟩ =
      some (⟨some "Bug report", none, none, none, none, none, none⟩,
            "https://demo.backlog.com/add/PRJ") ∧
    FormData.timestamp ⟨some "Bug report", none, none, none, none, none, none⟩ = none := by
  refine ⟨by decide, rfl⟩

/-- C4 (amended): every staged handoff record written by the current popup's
`openBacklogIssuePage` (src/src/popup.tsx) has exactly the shape
`{summary, description, issueTypeId, priorityId, assigneeId,
screenshotDataUrl, timestamp}` with every payload field the `|| null`
collapse of the corresponding (trimmed) popup value and the timestamp set to
the write time; the older copy in src/unnamed/part_001 writes the same record
without the timestamp field. -/
theorem openBacklogIssuePage_timestamp_shape (st : PopupForm) (now : Int)
    (rec rec' : FormData) (url url' : String) :
    (Popup.openBacklogIssuePage st now = some (rec, url) →
      rec = ⟨strOrNull (jsTrim st.title), strOrNull (jsTrim st.description),
             strOrNull st.selectedIssueTypeId, strOrNull st.selectedPriorityId,
             strOrNull st.selectedAssigneeId, optOrNull st.screenshotDataUrl,
             some now⟩) ∧
    (LegacyPopup.openBacklogIssuePage st = some (rec', url') →
      rec'.timestamp = none) := by
  constructor
  · intro h
    simp only [Popup.openBacklogIssuePage] at h
    cases hfind : st.projects.find? (fun p => toString p.id = st.selectedProjectId) with
    | none => simp only [hfind] at h; exact Option.noConfusion h
    | some proj =>
        simp only [hfind] at h
        by_cases hs : st.space = ""
        · rw [if_pos hs] at h; exact Option.noConfusion h
        · rw [if_neg hs] at h
          injection Option.some.inj h with hrec hurl
          exact hrec.symm
  · intro h
    simp only [LegacyPopup.openBacklogIssuePage] at h
    cases hfind : st.projects.find? (fun p => toString p.id = st.selectedProjectId) with
    | none => simp only [hfind] at h; exact Option.noConfusion h
    | some proj =>
        simp only [hfind] at h
        by_cases hs : st.space = ""
        · rw [if_pos hs] at h; exact Option.noConfusion h
        · rw [if_neg hs] at h
          injection Option.some.inj h with hrec hurl
          rw [← hrec]

/-- Witness for C4: the current popup's writer stamps the record at a
concrete state. -/
theorem openBacklogIssuePage_timestamp_shape_witness :
    (⟨some "t", none, none, none, none, none, some 42⟩ : FormData) =
      ⟨strOrNull (jsTrim "t"), strOrNull (jsTrim ""), strOrNull "", strOrNull "",
       strOrNull "", optOrNull none, some 42⟩ :=
  (openBacklogIssuePage_timestamp_shape
      ⟨[⟨1, "PRJ"⟩], "1", "demo.backlog.com", "t", "", "", "", "", none⟩ 42
      ⟨some "t", none, none, none, none, none, some 42⟩
      ⟨some "t", none, none, none, none, none, none⟩
      "https://demo.backlog.com/add/PRJ" "u").1 (by decide)

/-- C1: a staged record whose age `now - timestamp` exceeds the 5000 ms
freshness window is never applied to the page: `fillForm` performs no DOM
effect at all — no input value, no editor content, no combobox click, no
notification — and returns normally (the record itself is still cleared). -/
theorem fillForm_stale_record_never_applied (env : ContentScript.FillEnv)
    (fd : FormData) (t : Int) (hst : env.storedData = some fd)
    (hts : fd.timestamp = some t) (hstale : env.now - t > 5000) :
    (ContentScript.fillForm env).effects = [] ∧
    (ContentScript.fillForm env).errored = false ∧
    (ContentScript.fillForm env).stored = none := by
  have hage : ContentScript.ageExceeded env.now fd.timestamp = true := by
    rw [hts]; simp [ContentScript.ageExceeded]; exact hstale
  simp [ContentScript.fillForm, hst, hage]

/-- Witness for C1: a record staged at time 0 read at time 10000 is dropped. -/
theorem fillForm_stale_record_never_applied_witness :
    (ContentScript.fillForm
        ⟨some ⟨some "s", none, none, none, none, none, some 0⟩, 10000,
         ⟨true, true, ⟨false, none, false, false, false⟩,
          ⟨false, none, false, false, false⟩,
          ⟨false, none, false, false, false⟩⟩⟩).effects = [] :=
  (fillForm_stale_record_never_applied
      ⟨some ⟨some "s", none, none, none, none, none, some 0⟩, 10000,
       ⟨true, true, ⟨false, none, false, false, false⟩,
        ⟨false, none, false, false, false⟩,
        ⟨false, none, false, false, false⟩⟩⟩
      ⟨some "s", none, none, none, none, none, some 0⟩ 0 rfl rfl (by decide)).1

/-- C2: whenever a staged record is present, `fillForm` issues exactly one
remove operation for the key, before and regardless of the age check and of
whether any field is used, leaving the key cleared; when no record is
present it only reads, leaving storage unchanged. -/
theorem fillForm_remove_exactly_once (env : ContentScript.FillEnv) :
    (env.storedData.isSome = true →
      (ContentScript.fillForm env).ops.count ContentScript.StorageOp.remove = 1 ∧
      (ContentScript.fillForm env).stored = none) ∧
    (env.storedData = none →
      (ContentScript.fillForm env).ops = [ContentScript.StorageOp.get] ∧
      (ContentScript.fillForm env).stored = env.storedData) := by
  cases hst : env.storedData with
  | none => simp [ContentScript.fillForm, hst]
  | some fd =>
      constructor
      · intro _
        simp only [ContentScript.fillForm, hst]
        split
        · exact ⟨rfl, rfl⟩
        · split
          · exact ⟨rfl, rfl⟩
          · exact ⟨rfl, rfl⟩
      · intro hnone
        exact Option.noConfusion hnone

/-- Witness for C2: a present record is removed exactly once. -/
theorem fillForm_remove_exactly_once_witness :
    (ContentScript.fillForm
        ⟨some ⟨none, none, none, none, none, none, some 0⟩, 0,
         ⟨false, false, ⟨false, none, false, false, false⟩,
          ⟨false, none, false, false, false⟩,
          ⟨false, none, false, false, false⟩⟩⟩).ops.count
      ContentScript.StorageOp.remove = 1 :=
  ((fillForm_remove_exactly_once
      ⟨some ⟨none, none, none, none, none, none, some 0⟩, 0,
       ⟨false, false, ⟨false, none, false, false, false⟩,
        ⟨false, none, false, false, false⟩,
        ⟨false, none, false, false, false⟩⟩⟩).1 (by decide)).1

/-- C9: a fresh staged record all six payload fields of which are null leaves
the page completely untouched — `fillForm` bails out before the DOM phase, so
no input, editor, combobox or notification effect happens — while the record
is still removed from storage. -/
theorem fillForm_all_null_fields_no_effects (env : ContentScript.FillEnv)
    (fd : FormData) (hst : env.storedData = some fd)
    (hfresh : ContentScript.ageExceeded env.now fd.timestamp = false)
    (h1 : fd.summary = none) (h2 : fd.description = none)
    (h3 : fd.issueTypeId = none) (h4 : fd.priorityId = none)
    (h5 : fd.assigneeId = none) (h6 : fd.screenshotDataUrl = none) :
    (ContentScript.fillForm env).effects = [] ∧
    (ContentScript.fillForm env).ops =
      [ContentScript.StorageOp.get, ContentScript.StorageOp.remove] ∧
    (ContentScript.fillForm env).stored = none := by
  have hfal : ContentScript.allFalsy fd = true := by
    simp [ContentScript.allFalsy, h1, h2, h3, h4, h5, h6, truthy]
  simp [ContentScript.fillForm, hst, hfresh, hfal]

/-- Witness for C9: an all-null fresh record produces no DOM effect. -/
theorem fillForm_all_null_fields_no_effects_witness :
    (ContentScript.fillForm
        ⟨some ⟨none, none, none, none, none, none, some 0⟩, 100,
         ⟨true, true, ⟨true, some "lb", true, true, false⟩,
          ⟨true, some "lb", true, true, false⟩,
          ⟨true, some "lb", true, true, false⟩⟩⟩).effects = [] :=
  (fillForm_all_null_fields_no_effects
      ⟨some ⟨none, none, none, none, none, none, some 0⟩, 100,
       ⟨true, true, ⟨true, some "lb", true, true, false⟩,
        ⟨true, some "lb", true, true, false⟩,
        ⟨true, some "lb", true, true, false⟩⟩⟩
      ⟨none, none, none, none, none, none, some 0⟩ rfl (by decide)
      rfl rfl rfl rfl rfl rfl).1

/-- Sequencing keeps the no-notification property of its two argument steps. -/
theorem seqE_no_notification (a b : List ContentScript.Effect × Bool) (s : String)
    (ha : ContentScript.Effect.appendNotification s ∉ a.1)
    (hb : ContentScript.Effect.appendNotification s ∉ b.1) :
    ContentScript.Effect.appendNotification s ∉ (ContentScript.seqE a b).1 := by
  unfold ContentScript.seqE
  split
  · exact ha
  · intro hm
    rcases List.mem_append.mp hm with hx | hx
    · exact ha hx
    · exact hb hx

/-- The combobox helper only ever clicks; it never appends a notification. -/
theorem selectComboboxOption_no_notification (cenv : ContentScript.ComboEnv)
    (labelId optionId s : String) :
    ContentScript.Effect.appendNotification s ∉
      (ContentScript.selectComboboxOption cenv labelId optionId).1 := by
  cases hp : cenv.present <;> cases hac : cenv.ariaControls <;>
    cases ht : cenv.throws <;> cases hl : cenv.listboxPresent <;>
      cases ho : cenv.optionPresent <;>
        simp [ContentScript.selectComboboxOption, hp, hac, ht, hl, ho]

/-- No step of the injection phase before the final block appends a
notification. -/
theorem domPhase_no_notification (dom : ContentScript.Dom) (fd : FormData) (s : String) :
    ContentScript.Effect.appendNotification s ∉ (ContentScript.domPhase dom fd).1 := by
  have hsum : ContentScript.Effect.appendNotification s ∉ (ContentScript.summaryFx dom fd).1 := by
    unfold ContentScript.summaryFx; split <;> simp
  have hdesc : ContentScript.Effect.appendNotification s ∉ (ContentScript.descFx dom fd).1 := by
    unfold ContentScript.descFx; split <;> simp
  have hpaste : ContentScript.Effect.appendNotification s ∉ (ContentScript.pasteFx dom fd).1 := by
    unfold ContentScript.pasteFx
    split
    · split <;> simp
    · simp
  have hcombo : ∀ (cenv : ContentScript.ComboEnv) (labelId : String) (field : Option String),
      ContentScript.Effect.appendNotification s ∉ (ContentScript.comboFx cenv labelId field).1 := by
    intro cenv labelId field
    unfold ContentScript.comboFx
    split
    · exact selectComboboxOption_no_notification cenv labelId (field.getD "") s
    · simp
  unfold ContentScript.domPhase
  exact seqE_no_notification _ _ s
    (seqE_no_notification _ _ s
      (seqE_no_notification _ _ s
        (seqE_no_notification _ _ s
          (seqE_no_notification _ _ s
            (seqE_no_notification _ _ s (by simp) hsum)
            hdesc)
          hpaste)
        (hcombo _ _ _))
      (hcombo _ _ _))
    (hcombo _ _ _)

/-- If the DOM phase threw, the final notification block never ran, so the
effects performed contain no notification. -/
theorem fillDom_no_notification (dom : ContentScript.Dom) (fd : FormData) (s : String)
    (h : (ContentScript.fillDom dom fd).2 = true) :
    ContentScript.Effect.appendNotification s ∉ (ContentScript.fillDom dom fd).1 := by
  unfold ContentScript.fillDom at h ⊢
  unfold ContentScript.seqE at h ⊢
  by_cases hp : (ContentScript.domPhase dom fd).2
  · rw [if_pos hp] at h ⊢
    exact domPhase_no_notification dom fd s
  · rw [if_neg hp] at h
    exact absurd h (by simp)

/-- C6: every error raised inside `fillForm` is swallowed at the entry point
`fillForm().catch(() => {})`: the content script never propagates an
exception (its observable behaviour is exactly the storage operations and
effects of `fillForm`, with the rejection dropped and the empty catch handler
adding nothing), and it never reports a failure to the user or the page — a
run that errored contains no notification effect. -/
theorem fillForm_errors_swallowed (env : ContentScript.FillEnv)
    (h : (ContentScript.fillForm env).errored = true) :
    ContentScript.runContentScript env =
      ((ContentScript.fillForm env).ops, (ContentScript.fillForm env).effects,
       (ContentScript.fillForm env).stored) ∧
    ∀ s, ContentScript.Effect.appendNotification s ∉ (ContentScript.fillForm env).effects := by
  refine ⟨rfl, ?_⟩
  intro s
  cases hst : env.storedData with
  | none => simp [ContentScript.fillForm, hst] at h
  | some fd =>
      simp only [ContentScript.fillForm, hst] at h ⊢
      by_cases hage : ContentScript.ageExceeded env.now fd.timestamp
      · simp [hage] at h
      · rw [if_neg (by simp [hage])] at h ⊢
        by_cases hfal : ContentScript.allFalsy fd
        · simp [hfal] at h
        · rw [if_neg (by simp [hfal])] at h ⊢
          exact fillDom_no_notification env.dom fd s h

/-- Witness for C6: a combobox lookup that throws mid-run is swallowed and no
notification is shown. -/
theorem fillForm_errors_swallowed_witness :
    ContentScript.Effect.appendNotification ContentScript.notifyText ∉
      (ContentScript.fillForm
        ⟨some ⟨none, none, some "7", none, none, none, some 0⟩, 0,
         ⟨true, true, ⟨true, some "lb", true, true, true⟩,
          ⟨false, none, false, false, false⟩,
          ⟨false, none, false, false, false⟩⟩⟩).effects :=
  (fillForm_errors_swallowed
      ⟨some ⟨none, none, some "7", none, none, none, some 0⟩, 0,
       ⟨true, true, ⟨true, some "lb", true, true, true⟩,
        ⟨false, none, false, false, false⟩,
        ⟨false, none, false, false, false⟩⟩⟩ (by decide)).2
    ContentScript.notifyText

/-- Dropping past an appended list lands inside the second list. -/
theorem drop_append_len {α : Type} (t a : List α) (j : Nat) :
    (t ++ a).drop (t.length + j) = a.drop j := by
  induction t with
  | nil => simp
  | cons c ts ih =>
      simp only [List.cons_append, List.length_cons]
      rw [show ts.length + 1 + j = (ts.length + j) + 1 from by omega]
      rw [List.drop_succ_cons]
      exact ih

/-- A list is a `leadsWith`-prefix of itself followed by anything. -/
theorem leadsWith_self_append (l m : List Char) : leadsWith l (l ++ m) = true := by
  induction l with
  | nil => rfl
  | cons c cs ih => simp [leadsWith, ih]

/-- At capture length exactly `t.length`, the greedy search succeeds: the
capture is all dot-matchable and is immediately followed by `/api`. -/
theorem searchJ_base (t : List Char) (ht : t ≠ []) (hdot : t.all jsDot = true) :
    searchJ (t ++ apiV2Lit) t.length = some t.length := by
  obtain ⟨n, hn⟩ : ∃ n, t.length = n + 1 := by
    cases t with
    | nil => exact absurd rfl ht
    | cons c ts => exact ⟨ts.length, rfl⟩
  have h1 : (t ++ apiV2Lit).take t.length = t := List.take_left t apiV2Lit
  have h2 : (t ++ apiV2Lit).drop t.length = apiV2Lit := List.drop_left t apiV2Lit
  rw [hn] at h1 h2 ⊢
  simp only [searchJ]
  rw [h1, h2, hdot]
  have h3 : leadsWith apiLit apiV2Lit = true := by decide
  rw [h3]
  simp

/-- For every capture length strictly between `t.length` and the end of the
text, the remainder is a proper suffix of `/api/v2` and the literal `/api`
does not follow, so greedy backtracking walks down to `t.length`. -/
theorem searchJ_upto (t : List Char) (ht : t ≠ []) (hdot : t.all jsDot = true) :
    ∀ k, k ≤ 7 → searchJ (t ++ apiV2Lit) (t.length + k) = some t.length := by
  intro k
  induction k with
  | zero => intro _; rw [Nat.add_zero]; exact searchJ_base t ht hdot
  | succ k ih =>
      intro hk
      have hk6 : k ≤ 6 := by omega
      have hd : (t ++ apiV2Lit).drop (t.length + (k + 1)) = apiV2Lit.drop (k + 1) :=
        drop_append_len t apiV2Lit (k + 1)
      have hb : leadsWith apiLit (apiV2Lit.drop (k + 1)) = false := by
        interval_cases k <;> decide
      rw [show t.length + (k + 1) = (t.length + k) + 1 from by omega]
      simp only [searchJ]
      rw [Nat.add_assoc t.length k 1, hd, hb]
      rw [if_neg (by simp)]
      exact ih (by omega)

/-- The greedy capture against `t ++ "/api/v2"` is exactly `t`. -/
theorem captureLen_spec (t : List Char) (ht : t ≠ []) (hdot : t.all jsDot = true) :
    captureLen (t ++ apiV2Lit) = some t.length := by
  unfold captureLen
  rw [show (t ++ apiV2Lit).length = t.length + 7 from by simp [apiV2Lit]]
  exact searchJ_upto t ht hdot 7 (by omega)

/-- One successful step of the scan: when the literal prefix matches at the
current position, the result is decided by the capture attempt here. -/
theorem regexSpace_cons_pos (c : Char) (rest : List Char)
    (h : leadsWith httpsLit (c :: rest) = true) :
    regexSpace (c :: rest) =
      match captureLen ((c :: rest).drop 8) with
      | some j => some (((c :: rest).drop 8).take j)
      | none => regexSpace rest := by
  simp only [regexSpace]
  rw [h]
  exact if_pos rfl

/-- The regex `/https:\/\/(.+)\/api/` applied to `https://` ++ t ++ `/api/v2`
captures exactly `t`, for a non-empty all-dot-matchable `t`: the match starts
at position 0 and the greedy group stops at the last `/api`, which is the one
appended by the constructor. -/
theorem regexSpace_spec (t : List Char) (ht : t ≠ []) (hdot : t.all jsDot = true) :
    regexSpace (httpsLit ++ (t ++ apiV2Lit)) = some t := by
  have hshape : httpsLit ++ (t ++ apiV2Lit) =
      'h' :: (['t', 't', 'p', 's', ':', '/', '/'] ++ (t ++ apiV2Lit)) := rfl
  have hpre : leadsWith httpsLit
      ('h' :: (['t', 't', 'p', 's', ':', '/', '/'] ++ (t ++ apiV2Lit))) = true := by
    rw [← hshape]; exact leadsWith_self_append httpsLit (t ++ apiV2Lit)
  have hdrop : ('h' :: (['t', 't', 'p', 's', ':', '/', '/'] ++ (t ++ apiV2Lit))).drop 8 =
      t ++ apiV2Lit := rfl
  rw [hshape, regexSpace_cons_pos _ _ hpre, hdrop, captureLen_spec t ht hdot]
  show some ((t ++ apiV2Lit).take t.length) = some t
  rw [List.take_left]

/-- A non-empty string has a non-empty character list. -/
theorem toList_ne_nil_of_ne_empty (s : String) (hs : s ≠ "") : s.toList ≠ [] := by
  intro h
  apply hs
  cases s with
  | mk d =>
      have hd : d = [] := h
      rw [hd]

/-- C10 counterexample: for the non-empty space `"a\nb"` (and non-empty key),
`getIssueUrl` does not return `"https://" ++ space ++ "/view/" ++ key`: the
`.` in `/https:\/\/(.+)\/api/` does not match the newline, the regex fails,
and the space collapses to the empty string. -/
theorem getIssueUrl_newline_space_counterexample :
    BacklogAPIClient.create "a\nb" "k" = some ⟨"https://a\nb/api/v2", "k"⟩ ∧
    BacklogAPIClient.getIssueUrl ⟨"https://a\nb/api/v2", "k"⟩ "TEST-1" =
      "https:///view/TEST-1" ∧
    "https:///view/TEST-1" ≠ "https://a\nb/view/TEST-1" := by
  refine ⟨by decide, by decide, by decide⟩

/-- C10 (amended): for every client constructed from a non-empty space `s`
and non-empty apiKey such that every character of `s` is matched by the
regex metacharacter `.` (no line terminators), and every issue key,
`getIssueUrl` returns `"https://" ++ s ++ "/view/" ++ key`: extracting the
space back out of the constructor-built `baseURL` recovers the constructor
argument. -/
theorem getIssueUrl_roundtrip (s k issueKey : String) (cl : BacklogAPIClient)
    (hs : s ≠ "") (hk : k ≠ "") (hdot : s.toList.all jsDot = true)
    (hcl : BacklogAPIClient.create s k = some cl) :
    cl.getIssueUrl issueKey = "https://" ++ s ++ "/view/" ++ issueKey := by
  unfold BacklogAPIClient.create at hcl
  rw [if_neg (by push_neg; exact ⟨hs, hk⟩)] at hcl
  have hcl2 := (Option.some.inj hcl).symm
  subst hcl2
  unfold BacklogAPIClient.getIssueUrl
  have hlist : ("https://" ++ s ++ "/api/v2").toList = httpsLit ++ (s.toList ++ apiV2Lit) := by
    show ("https://" ++ s ++ "/api/v2").data = httpsLit ++ (s.data ++ apiV2Lit)
    rw [String.data_append, String.data_append]
    rfl
  rw [hlist, regexSpace_spec s.toList (toList_ne_nil_of_ne_empty s hs) hdot]
  rfl

/-- Witness for C10: the round trip at a realistic space. -/
theorem getIssueUrl_roundtrip_witness :
    BacklogAPIClient.getIssueUrl ⟨"https://demo.backlog.com/api/v2", "key"⟩ "PRJ-1" =
      "https://demo.backlog.com/view/PRJ-1" :=
  getIssueUrl_roundtrip "demo.backlog.com" "key" "PRJ-1"
    ⟨"https://demo.backlog.com/api/v2", "key"⟩
    (by decide) (by decide) (by decide) (by decide)
